import Mathlib

/-!
Verification of the collection-and-cleaning pipeline of `model_app.py`
(Telugu Corpus Collector).

The embedding models the pure text-processing functions (`is_telugu_text`,
`clean_text`), the per-URL fetcher (`collect_from_url`), the collector
(`save_corpus`) and the cleaner (`clean_corpus_file`).  Strings are
modelled as `List Char`.  Python's machine effects (HTTP, filesystem,
streamlit UI calls) are modelled by explicit oracles: a fetch oracle maps
the configured timeout to either a response or a raised exception, and
filesystem write operations are `Except`-valued, a `.error` value being a
raised `OSError`.  `st.write` / `st.error` display calls have no effect on
the data flow and are not modelled.

Character classes: the program only distinguishes, via its regexes, the
Telugu Unicode block `U+0C00-U+0C7F`, ASCII word characters, whitespace,
and the ASCII classes of the URL/email patterns.  The embedding models
`\w` as ASCII alphanumerics, underscore, and the Telugu block (combining
signs inside the block are approximated as word characters), and `\s` /
`str.strip` via the Python whitespace set.
-/

namespace ModelApp

/-- Python whitespace (the set matched by `\s` in `re` on `str`, which is
also the set stripped by `str.strip()`). -/
def pyIsSpace (c : Char) : Bool :=
  c ∈ [' ', '\t', '\n', '\r', '\x0b', '\x0c', '\x1c', '\x1d', '\x1e', '\x1f',
       '\x85', ' ', ' ', ' ', ' ', ' ', ' ',
       ' ', ' ', ' ', ' ', ' ', ' ', ' ',
       ' ', ' ', ' ', ' ', '　']

/-- The Telugu block `[ఀ-౿]` counted by `is_telugu_text`. -/
def isTeluguChar (c : Char) : Bool :=
  decide (0xC00 ≤ c.toNat ∧ c.toNat ≤ 0xC7F)

/-- Python `\w` restricted to the program's character universe:
ASCII alphanumerics, underscore, and the Telugu block. -/
def pyIsWordChar (c : Char) : Bool :=
  decide (('a' ≤ c ∧ c ≤ 'z') ∨ ('A' ≤ c ∧ c ≤ 'Z') ∨ ('0' ≤ c ∧ c ≤ '9')
    ∨ c = '_' ∨ (0xC00 ≤ c.toNat ∧ c.toNat ≤ 0xC7F))

/-- `str.lower()` on the program's character universe: ASCII upper-case
letters are mapped down, everything else (Telugu has no case) is fixed. -/
def pyToLower (c : Char) : Char :=
  if 'A' ≤ c ∧ c ≤ 'Z' then Char.ofNat (c.toNat + 32) else c

/-- `str.strip()`: drop leading and trailing Python whitespace. -/
def pyStrip (l : List Char) : List Char :=
  (l.dropWhile pyIsSpace).rdropWhile pyIsSpace

/-- `re.sub(r'\s+', ' ', text)`: every maximal run of whitespace becomes a
single `' '`.  The Boolean state records whether the previous character
was part of a whitespace run already replaced. -/
def collapseAux : Bool → List Char → List Char
  | _, [] => []
  | prevWS, c :: rest =>
    if pyIsSpace c then
      if prevWS then collapseAux true rest else ' ' :: collapseAux true rest
    else c :: collapseAux false rest

/-- First step of `clean_text`. -/
def collapseWS (l : List Char) : List Char := collapseAux false l

/-- Length of the match of `http[s]?://\S+` at the head of `l`, if any.
The greedy `[s]?` tries `https://` first; `\S+` is a maximal non-empty
run of non-whitespace.  No other backtracking can succeed because `:` and
`/` are fixed literals and `\S+` cannot be re-split. -/
def urlMatchLen (l : List Char) : Option Nat :=
  let tryPre : List Char → Option Nat := fun p =>
    if l.take p.length = p then
      let w := (l.drop p.length).takeWhile (fun c => !pyIsSpace c)
      if w.isEmpty then none else some (p.length + w.length)
    else none
  match tryPre "https://".toList with
  | some n => some n
  | none => tryPre "http://".toList

/-- `re.sub(r'http[s]?://\S+', '', text)`, scanning left to right over
non-overlapping matches.  Fuel-driven: every step either emits one
character or consumes a whole (non-empty) match, so `l.length` fuel is
always enough and the fuel-exhausted branch is unreachable from
`removeURL`. -/
def removeURLFuel : Nat → List Char → List Char
  | _, [] => []
  | 0, l => l
  | fuel + 1, c :: rest =>
    match urlMatchLen (c :: rest) with
    | some n => removeURLFuel fuel (rest.drop (n - 1))
    | none => c :: removeURLFuel fuel rest

/-- Second step of `clean_text`: URL removal. -/
def removeURL (l : List Char) : List Char := removeURLFuel l.length l

/-- `[A-Za-z0-9._%+-]` (local part of the email pattern). -/
def emailClassA (c : Char) : Bool :=
  decide (('a' ≤ c ∧ c ≤ 'z') ∨ ('A' ≤ c ∧ c ≤ 'Z') ∨ ('0' ≤ c ∧ c ≤ '9')
    ∨ c ∈ ['.', '_', '%', '+', '-'])

/-- `[A-Za-z0-9.-]` (domain part of the email pattern). -/
def emailClassB (c : Char) : Bool :=
  decide (('a' ≤ c ∧ c ≤ 'z') ∨ ('A' ≤ c ∧ c ≤ 'Z') ∨ ('0' ≤ c ∧ c ≤ '9')
    ∨ c ∈ ['.', '-'])

/-- `[A-Z|a-z]` (top-level-domain class of the email pattern; the `|` is a
literal member of the character class in the source regex). -/
def emailClassC (c : Char) : Bool :=
  decide (('a' ≤ c ∧ c ≤ 'z') ∨ ('A' ≤ c ∧ c ≤ 'Z') ∨ c = '|')

/-- `{2,}` with a trailing `\b`: greedy, so the longest `k ≤ kmax` with
`k ≥ 2` such that a word boundary follows the `k`-th class-C character of
`cs` wins.  `cs` is the text after the `\.`. -/
def emailTryC (cs : List Char) : Nat → Option Nat
  | 0 => none
  | k + 1 =>
    if k + 1 < 2 then none
    else
      let lastWord := match cs.get? k with
        | some ch => pyIsWordChar ch
        | none => false
      let nextWord := match cs.get? (k + 1) with
        | some ch => pyIsWordChar ch
        | none => false
      if lastWord ≠ nextWord then some (k + 1) else emailTryC cs k

/-- `[A-Za-z0-9.-]+\.[A-Z|a-z]{2,}\b` after the `@`: the greedy `+` is
backtracked from its maximal run length down to 1, each candidate `j`
requiring a literal `.` right after the `j` consumed characters and then a
successful `{2,}\b` tail.  Returns `(j, k)` for a match of `j + 1 + k`
characters. -/
def emailTryB (rest : List Char) : Nat → Option (Nat × Nat)
  | 0 => none
  | j + 1 =>
    if rest.get? (j + 1) = some '.' then
      let cs := rest.drop (j + 2)
      match emailTryC cs (cs.takeWhile emailClassC).length with
      | some k => some (j + 1, k)
      | none => emailTryB rest j
    else emailTryB rest j

/-- Length of the match of
`\b[A-Za-z0-9._%+-]+@[A-Za-z0-9.-]+\.[A-Z|a-z]{2,}\b` at the head of `l`,
given whether the character just before `l` is a word character.  The
local part must be a maximal class-A run followed by `@` (no shorter run
can be followed by `@` since `@` is not in class A). -/
def emailMatchLen (prevWord : Bool) (l : List Char) : Option Nat :=
  match l with
  | [] => none
  | c :: _ =>
    if prevWord = pyIsWordChar c then none
    else
      if ((l.takeWhile emailClassA)).isEmpty then none
      else
        let aLen := (l.takeWhile emailClassA).length
        if (l.drop aLen).head? = some '@' then
          let rest := (l.drop aLen).tail
          match emailTryB rest (rest.takeWhile emailClassB).length with
          | some (j, k) => some (aLen + 1 + j + 1 + k)
          | none => none
        else none

/-- Word-character status of position `i` of `l` (off-list counts as
non-word), used to re-seed the boundary state after a removed match. -/
def wordAt (l : List Char) (i : Nat) : Bool :=
  match l.get? i with
  | some c => pyIsWordChar c
  | none => false

/-- `re.sub` for the email pattern, scanning left to right over
non-overlapping matches; `prevWord` tracks the `\b` state.  Fuel-driven
exactly like `removeURLFuel`. -/
def removeEmailFuel : Nat → Bool → List Char → List Char
  | _, _, [] => []
  | 0, _, l => l
  | fuel + 1, prevWord, c :: rest =>
    match emailMatchLen prevWord (c :: rest) with
    | some n => removeEmailFuel fuel (wordAt (c :: rest) (n - 1)) (rest.drop (n - 1))
    | none => c :: removeEmailFuel fuel (pyIsWordChar c) rest

/-- Third step of `clean_text`: email removal (string start is a non-word
position). -/
def removeEmail (l : List Char) : List Char := removeEmailFuel l.length false l

/-- `clean_text`: collapse whitespace, remove URLs, remove emails, strip. -/
def clean_text (text : List Char) : List Char :=
  pyStrip (removeEmail (removeURL (collapseWS text)))

/-- `is_telugu_text`: false on blank input; otherwise the ratio of
Telugu-block characters to word characters must reach `min_ratio`
(false when there is no word character at all).  Python's float division
is modelled by exact rational division. -/
def is_telugu_text (text : List Char) (min_ratio : ℚ) : Bool :=
  if pyStrip text = [] then false
  else
    let telugu := text.countP isTeluguChar
    let total := text.countP pyIsWordChar
    if total = 0 then false
    else decide (min_ratio ≤ (telugu : ℚ) / (total : ℚ))

/-- `CollectionConfig` as read from the sidebar (`get_config`). -/
structure Config where
  timeout : Nat
  delay_between_requests : ℚ
  max_retries : Nat
  min_paragraph_length : Nat
  min_telugu_ratio : ℚ
  extract_headings : Bool
deriving DecidableEq

/-- The outcome of `requests.get` followed by BeautifulSoup parsing and the
decomposition of script/style/nav/footer/header/aside elements.
`paragraphs` holds `p.get_text(strip=True)` for every remaining `<p>`
element in document order; `headings` holds `h.get_text(strip=True)` for
every remaining `h1`..`h6` element in the order the code visits them
(all `h1`s, then all `h2`s, ...). -/
structure HttpResponse where
  status : Nat
  paragraphs : List (List Char)
  headings : List (List Char)
deriving DecidableEq

/-- The per-URL result dict built by `collect_from_url`. -/
structure FetchResult where
  url : List Char
  paragraphs : List (List Char)
  headings : List (List Char)
  success : Bool
  error : Option String
deriving DecidableEq

/-- The `try`-block body of `collect_from_url`: fetch (the oracle is a
function of the configured timeout, the only request parameter taken from
the config; a `.error` is a raised `requests` exception),
`raise_for_status` (raises for status codes in [400, 600)), then paragraph
and heading extraction.  The exception message shape is abstracted. -/
def fetchBody (fetch : Nat → Except String HttpResponse) (cfg : Config) :
    Except String (List (List Char) × List (List Char)) :=
  match fetch cfg.timeout with
  | .error e => .error e
  | .ok resp =>
    if 400 ≤ resp.status ∧ resp.status < 600 then
      .error ("HTTP error " ++ toString resp.status)
    else
      .ok
        (resp.paragraphs.filterMap fun t =>
          if cfg.min_paragraph_length ≤ t.length ∧ is_telugu_text t cfg.min_telugu_ratio
          then some (clean_text t) else none,
         if cfg.extract_headings then
           resp.headings.filterMap fun t =>
             if t ≠ [] ∧ is_telugu_text t cfg.min_telugu_ratio
             then some (clean_text t) else none
         else [])

/-- `collect_from_url`: the whole body is wrapped in
`try ... except Exception`, so the function always returns a result dict
and never lets an exception escape; on any raised exception the dict is
`{url, [], [], success: False, error: str(e)}`. -/
def collect_from_url (url : List Char) (fetch : Nat → Except String HttpResponse)
    (cfg : Config) : FetchResult :=
  match fetchBody fetch cfg with
  | .ok (p, h) => ⟨url, p, h, true, none⟩
  | .error e => ⟨url, [], [], false, some e⟩

/-- The JSON metadata dict built by `save_corpus`. -/
structure CollectionMetadata where
  collection_date : List Char
  total_urls : Nat
  successful_urls : Nat
  failed_urls : Nat
  total_paragraphs : Nat
  total_headings : Nat
  total_text_items : Nat
  total_characters : Nat
  config_used : Config
  failed_url_details : List (List Char × Option String)

def joinAll (ls : List (List Char)) : List Char := ls.foldr (· ++ ·) []

/-- A successful result contributes a block to the raw artifact only if it
has some content (`data['success'] and (data['paragraphs'] or
data['headings'])`). -/
def hasBlock (d : FetchResult) : Bool :=
  d.success && (!d.paragraphs.isEmpty || !d.headings.isEmpty)

/-- One source's block in the raw text artifact. -/
def sourceBlock (d : FetchResult) : List Char :=
  "\n=== SOURCE: ".toList ++ d.url ++ " ===\n\n".toList
  ++ joinAll (d.paragraphs.map (fun p => p ++ ['\n']))
  ++ (if d.headings.isEmpty then []
      else "\n--- HEADINGS ---\n".toList ++ joinAll (d.headings.map (fun h => h ++ ['\n'])))
  ++ ['\n'] ++ List.replicate 60 '=' ++ ['\n']

/-- The raw text artifact written by `save_corpus`: two header comment
lines, then the blocks of the successful non-empty results.  The two
`datetime.now()` renderings are modelled by the single `now` string. -/
def rawArtifact (now : List Char) (collected : List FetchResult) : List Char :=
  "# Telugu Corpus Collection - ".toList ++ now ++ ['\n']
  ++ "# Total sources: ".toList
  ++ (toString (collected.filter (·.success)).length).toList ++ "\n\n".toList
  ++ joinAll ((collected.filter hasBlock).map sourceBlock)

/-- The `all_text` accumulator of `save_corpus`: paragraphs then headings
of every successful result that contributed a block. -/
def allText (collected : List FetchResult) : List (List Char) :=
  (collected.filter hasBlock).flatMap (fun d => d.paragraphs ++ d.headings)

/-- The metadata dict computed at the end of `save_corpus`. -/
def collectionMetadata (now : List Char) (collected : List FetchResult)
    (cfg : Config) : CollectionMetadata :=
  let successful := collected.filter (·.success)
  let failed := collected.filter (fun d => !d.success)
  { collection_date := now
    total_urls := collected.length
    successful_urls := successful.length
    failed_urls := failed.length
    total_paragraphs := (successful.map (·.paragraphs.length)).sum
    total_headings := (successful.map (·.headings.length)).sum
    total_text_items := (allText collected).length
    total_characters := ((allText collected).map (·.length)).sum
    config_used := cfg
    failed_url_details := failed.map (fun d => (d.url, d.error)) }

/-- Filesystem oracle for `save_corpus`: the raw-file write (the `with
open(...)`/`f.write` sequence, modelled as one whole-artifact write) and
the metadata write; a `.error` is a raised `OSError`. -/
structure SaveFS where
  writeRaw : List Char → Except String Unit
  writeMeta : CollectionMetadata → Except String Unit

/-- `save_corpus`: `None, None` for empty input, otherwise write the raw
artifact, compute the metadata, write it, and return both.  There is no
`try`/`except` in the source function, so a failing write propagates: the
result type is `Except`, and a `.error` outcome is the exception reaching
the caller. -/
def save_corpus (collected : List FetchResult) (cfg : Config) (now : List Char)
    (fs : SaveFS) : Except String (Option (List Char × CollectionMetadata)) :=
  if collected.isEmpty then .ok none
  else
    match fs.writeRaw (rawArtifact now collected) with
    | .error e => .error e
    | .ok _ =>
      match fs.writeMeta (collectionMetadata now collected cfg) with
      | .error e => .error e
      | .ok _ => .ok (some (rawArtifact now collected, collectionMetadata now collected cfg))

/-- `content.split('\n')`: like Python, always at least one piece. -/
def pySplitLines : List Char → List (List Char)
  | [] => [[]]
  | c :: rest =>
    if c = '\n' then [] :: pySplitLines rest
    else
      match pySplitLines rest with
      | [] => [[c]]
      | h :: t => (c :: h) :: t

/-- The per-line filter of `clean_corpus_file`: strip; skip blank lines
and structural marker lines (`===`, `---`, `#`); clean; keep only lines of
length at least 10 that pass the classifier. -/
def lineKeep (cfg : Config) (line : List Char) : Option (List Char) :=
  let s := pyStrip line
  if s = [] ∨ "===".toList.isPrefixOf s ∨ "---".toList.isPrefixOf s
      ∨ "#".toList.isPrefixOf s then none
  else
    let c := clean_text s
    if 10 ≤ c.length ∧ is_telugu_text c cfg.min_telugu_ratio then some c else none

/-- The `cleaned_lines` list of `clean_corpus_file`. -/
def cleanedLines (content : List Char) (cfg : Config) : List (List Char) :=
  (pySplitLines content).filterMap (lineKeep cfg)

/-- The deduplication loop of `clean_corpus_file`: `seen` is the set of
lowercased lines already kept (modelled by a list, membership being its
only use); a line is kept iff its lowercase form is new, and is stored
with its original casing. -/
def dedupAux (seen : List (List Char)) : List (List Char) → List (List Char)
  | [] => []
  | l :: rest =>
    let low := l.map pyToLower
    if low ∈ seen then dedupAux seen rest
    else l :: dedupAux (low :: seen) rest

/-- The `unique_lines` list of `clean_corpus_file`. -/
def pyDedup (ls : List (List Char)) : List (List Char) := dedupAux [] ls

/-- The spec's description of the deduplication, taken verbatim from its
words: keep the first occurrence of each case-insensitive line (with its
original casing, in input order) and drop every later case-insensitive
duplicate. -/
def dedupSpec : List (List Char) → List (List Char)
  | [] => []
  | x :: xs =>
    x :: dedupSpec (xs.filter fun m => decide (¬ m.map pyToLower = x.map pyToLower))
termination_by l => l.length
decreasing_by
  simp only [List.length_cons]
  exact Nat.lt_succ_of_le (List.length_filter_le _ _)

/-- The cleaning-stats dict of `clean_corpus_file`.  Python's float
arithmetic on `reduction_percentage` is modelled by exact rational
arithmetic (exact at the inputs of interest). -/
structure CleaningStats where
  original_lines : Nat
  cleaned_lines : Nat
  final_lines : Nat
  duplicates_removed : Int
  reduction_percentage : ℚ
  cleaning_date : List Char

/-- The stats computed by `clean_corpus_file` from one raw artifact. -/
def cleaningStats (content : List Char) (cfg : Config) (now : List Char) :
    CleaningStats :=
  let lines := pySplitLines content
  let cleaned := cleanedLines content cfg
  let unique := pyDedup cleaned
  { original_lines := lines.length
    cleaned_lines := cleaned.length
    final_lines := unique.length
    duplicates_removed := (cleaned.length : Int) - (unique.length : Int)
    reduction_percentage := (1 - (unique.length : ℚ) / (lines.length : ℚ)) * 100
    cleaning_date := now }

/-- Filesystem oracle for `clean_corpus_file`: reading the raw artifact,
writing the cleaned file and writing the stats sidecar; a `.error` is a
raised exception (missing file, decode error, `OSError` on write). -/
structure CleanFS where
  readRaw : Except String (List Char)
  writeClean : List Char → Except String Unit
  writeStats : CleaningStats → Except String Unit

/-- The `try`-block body of `clean_corpus_file`: read, filter, dedupe,
write the cleaned file (`'\n'.join(unique_lines)`), compute the stats,
write them, and return the cleaned artifact and stats. -/
def cleanBody (fs : CleanFS) (cfg : Config) (now : List Char) :
    Except String (List Char × CleaningStats) :=
  match fs.readRaw with
  | .error e => .error e
  | .ok content =>
    let outContent := List.intercalate ['\n'] (pyDedup (cleanedLines content cfg))
    match fs.writeClean outContent with
    | .error e => .error e
    | .ok _ =>
      match fs.writeStats (cleaningStats content cfg now) with
      | .error e => .error e
      | .ok _ => .ok (outContent, cleaningStats content cfg now)

/-- `clean_corpus_file`: the whole body is wrapped in
`try ... except Exception`, so any raised exception — from the read or
from either write — is caught and turned into the `None, None` return. -/
def clean_corpus_file (fs : CleanFS) (cfg : Config) (now : List Char) :
    Option (List Char) × Option CleaningStats :=
  match cleanBody fs cfg now with
  | .ok (f, s) => (some f, some s)
  | .error _ => (none, none)

/-- The sidebar's default configuration values. -/
def cfg0 : Config :=
  { timeout := 15
    delay_between_requests := 1
    max_retries := 3
    min_paragraph_length := 20
    min_telugu_ratio := mkRat 3 5
    extract_headings := true }

/-- Normal form of collapsed text: every whitespace character is a plain
`' '` and no space directly follows another.  The Boolean argument records
whether the previous character was a space. -/
def normWS : Bool → List Char → Bool
  | _, [] => true
  | prevSp, c :: rest =>
    if pyIsSpace c then !prevSp && (c == ' ') && normWS true rest
    else normWS false rest

/-- A fetch oracle answering HTTP 404 with no content. -/
def fetch404 : Nat → Except String HttpResponse := fun _ => .ok ⟨404, [], []⟩

/-- A fetch oracle raising a network exception (e.g. a timeout). -/
def fetchBoom : Nat → Except String HttpResponse := fun _ => .error "timed out"

/-- The default configuration with a different max-retries value. -/
def cfg1 : Config := { cfg0 with max_retries := 5 }

/-- A successful, empty fetch result. -/
def r0 : FetchResult := ⟨"https://te.wikipedia.org/wiki/a".toList, [], [], true, none⟩

/-- A cleaner filesystem whose reads succeed and whose cleaned-file write
raises (e.g. disk full). -/
def fsBadWrite : CleanFS :=
  { readRaw := .ok "x".toList
    writeClean := fun _ => .error "disk full"
    writeStats := fun _ => .ok () }

/-- A cleaner filesystem on which everything succeeds, reading an
artifact with three content lines, one of them a duplicate. -/
def fsCleanOk : CleanFS :=
  { readRaw := .ok "".toList
    writeClean := fun _ => .ok ()
    writeStats := fun _ => .ok () }

/-- A collector filesystem whose raw-artifact write raises. -/
def fsSaveBad : SaveFS :=
  { writeRaw := fun _ => .error "permission denied"
    writeMeta := fun _ => .ok () }

example : clean_text "  hello   world  ".toList = "hello world".toList := by decide
example : clean_text "a http://x b".toList = "a  b".toList := by decide
example : clean_text "a  b".toList = "a b".toList := by decide
example : clean_text "mail me at user@mail.com now".toList = "mail me at  now".toList := by decide
example : is_telugu_text "...".toList (6/10) = false := by decide
example : is_telugu_text "తెలుగు".toList (mkRat 6 10) = true := by
  unfold is_telugu_text
  rw [if_neg (by decide)]
  simp only
  rw [if_neg (by decide)]
  rw [show ("తెలుగు".toList.countP isTeluguChar) = 6 from by decide,
      show ("తెలుగు".toList.countP pyIsWordChar) = 6 from by decide]
  norm_num

/-! ### Whitespace and strip lemmas -/

lemma mem_collapseAux {c : Char} :
    ∀ (l : List Char) (b : Bool), c ∈ collapseAux b l → c ∈ l ∨ c = ' ' := by
  intro l
  induction l with
  | nil => intro b h; simp [collapseAux] at h
  | cons a rest ih =>
    intro b h
    by_cases ha : pyIsSpace a
    · by_cases hb : b
      · rw [collapseAux, if_pos ha, if_pos hb] at h
        rcases ih true h with h' | h'
        · exact Or.inl (List.mem_cons_of_mem a h')
        · exact Or.inr h'
      · rw [collapseAux, if_pos ha, if_neg hb] at h
        rcases List.mem_cons.mp h with h' | h'
        · exact Or.inr h'
        · rcases ih true h' with h'' | h''
          · exact Or.inl (List.mem_cons_of_mem a h'')
          · exact Or.inr h''
    · rw [collapseAux, if_neg ha] at h
      rcases List.mem_cons.mp h with h' | h'
      · exact Or.inl (h' ▸ List.mem_cons_self a rest)
      · rcases ih false h' with h'' | h''
        · exact Or.inl (List.mem_cons_of_mem a h'')
        · exact Or.inr h''

lemma collapseAux_ws_space {c : Char} :
    ∀ (l : List Char) (b : Bool), c ∈ collapseAux b l → pyIsSpace c → c = ' ' := by
  intro l
  induction l with
  | nil => intro b h; simp [collapseAux] at h
  | cons a rest ih =>
    intro b h hws
    by_cases ha : pyIsSpace a
    · by_cases hb : b
      · rw [collapseAux, if_pos ha, if_pos hb] at h
        exact ih true h hws
      · rw [collapseAux, if_pos ha, if_neg hb] at h
        rcases List.mem_cons.mp h with h' | h'
        · exact h'
        · exact ih true h' hws
    · rw [collapseAux, if_neg ha] at h
      rcases List.mem_cons.mp h with h' | h'
      · exact absurd (h' ▸ hws) (by simpa using ha)
      · exact ih false h' hws

lemma normWS_collapseAux : ∀ (l : List Char) (b : Bool), normWS b (collapseAux b l) = true := by
  intro l
  induction l with
  | nil => intro b; rfl
  | cons a rest ih =>
    intro b
    by_cases ha : pyIsSpace a
    · cases b with
      | true =>
        rw [collapseAux, if_pos ha, if_pos rfl]
        exact ih true
      | false =>
        rw [collapseAux, if_pos ha, if_neg (by simp), normWS]
        simp only [show pyIsSpace ' ' = true from rfl, if_pos]
        simpa using ih true
    · rw [collapseAux, if_neg ha, normWS, if_neg ha]
      exact ih false

lemma normWS_fix : ∀ (l : List Char) (b : Bool), normWS b l = true → collapseAux b l = l := by
  intro l
  induction l with
  | nil => intro b _; rfl
  | cons a rest ih =>
    intro b h
    by_cases ha : pyIsSpace a
    · rw [normWS, if_pos ha] at h
      simp only [Bool.and_eq_true, Bool.not_eq_true', beq_iff_eq] at h
      obtain ⟨⟨hb, hc⟩, hrest⟩ := h
      subst hb hc
      rw [collapseAux, if_pos ha, if_neg (by simp)]
      rw [ih true hrest]
    · rw [normWS, if_neg ha] at h
      rw [collapseAux, if_neg ha, ih false h]

lemma normWS_dropWhile {l : List Char} (h : normWS false l = true) :
    normWS false (l.dropWhile pyIsSpace) = true := by
  cases l with
  | nil => exact h
  | cons a rest =>
    by_cases ha : pyIsSpace a
    · rw [normWS, if_pos ha] at h
      simp only [Bool.and_eq_true, Bool.not_eq_true', beq_iff_eq] at h
      obtain ⟨⟨-, hc⟩, hrest⟩ := h
      rw [List.dropWhile_cons, if_pos ha]
      cases rest with
      | nil => rfl
      | cons d r' =>
        by_cases hd : pyIsSpace d
        · rw [normWS, if_pos hd] at hrest
          simp at hrest
        · rw [List.dropWhile_cons, if_neg hd]
          rw [normWS, if_neg hd] at hrest ⊢
          exact hrest
    · rwa [List.dropWhile_cons, if_neg ha]

lemma normWS_append_left :
    ∀ (l₁ l₂ : List Char) (b : Bool), normWS b (l₁ ++ l₂) = true → normWS b l₁ = true := by
  intro l₁
  induction l₁ with
  | nil => intro l₂ b _; rfl
  | cons a t ih =>
    intro l₂ b h
    rw [List.cons_append] at h
    by_cases ha : pyIsSpace a
    · rw [normWS, if_pos ha] at h ⊢
      simp only [Bool.and_eq_true] at h ⊢
      exact ⟨h.1, ih l₂ true h.2⟩
    · rw [normWS, if_neg ha] at h ⊢
      exact ih l₂ false h

lemma rdropWhile_pre (p : Char → Bool) (l : List Char) : l.rdropWhile p <+: l :=
  List.rdropWhile_prefix p l

lemma dropWhile_head_not (p : Char → Bool) :
    ∀ (l : List Char) (c : Char) (t : List Char), l.dropWhile p = c :: t → p c = false := by
  intro l
  induction l with
  | nil => intro c t h; simp at h
  | cons a r ih =>
    intro c t h
    by_cases hp : p a
    · rw [List.dropWhile_cons, if_pos hp] at h
      exact ih c t h
    · rw [List.dropWhile_cons, if_neg hp] at h
      cases h
      simpa using hp

lemma pyStrip_sublist (l : List Char) : List.Sublist (pyStrip l) l :=
  ((rdropWhile_pre pyIsSpace _).sublist).trans (List.dropWhile_sublist _)

lemma pyStrip_idem (l : List Char) : pyStrip (pyStrip l) = pyStrip l := by
  unfold pyStrip
  have h1 : ((l.dropWhile pyIsSpace).rdropWhile pyIsSpace).dropWhile pyIsSpace
      = (l.dropWhile pyIsSpace).rdropWhile pyIsSpace := by
    rcases hw : (l.dropWhile pyIsSpace).rdropWhile pyIsSpace with _ | ⟨c, t⟩
    · rfl
    · have hpre := rdropWhile_pre pyIsSpace (l.dropWhile pyIsSpace)
      rw [hw] at hpre
      obtain ⟨s, hs⟩ := hpre
      have hc : pyIsSpace c = false :=
        dropWhile_head_not pyIsSpace l c (t ++ s) (by rw [← hs]; rfl)
      rw [List.dropWhile_cons, if_neg (by simp [hc])]
  rw [h1, List.rdropWhile_idempotent]

lemma normWS_pyStrip {l : List Char} (h : normWS false l = true) :
    normWS false (pyStrip l) = true := by
  unfold pyStrip
  have h1 := normWS_dropWhile h
  obtain ⟨s, hs⟩ := rdropWhile_pre pyIsSpace (l.dropWhile pyIsSpace)
  exact normWS_append_left _ s false (by rw [hs]; exact h1)

/-! ### URL-removal lemmas -/

lemma urlMatchLen_eq_none {l : List Char} (h : ':' ∉ l) : urlMatchLen l = none := by
  have h8 : ¬ (l.take ("https://".toList).length = "https://".toList) := by
    intro he
    exact h (List.take_subset _ l (he ▸ (by decide : ':' ∈ "https://".toList)))
  have h7 : ¬ (l.take ("http://".toList).length = "http://".toList) := by
    intro he
    exact h (List.take_subset _ l (he ▸ (by decide : ':' ∈ "http://".toList)))
  unfold urlMatchLen
  simp only [if_neg h8, if_neg h7]

lemma removeURLFuel_id : ∀ (fuel : Nat) (l : List Char), ':' ∉ l → removeURLFuel fuel l = l := by
  intro fuel
  induction fuel with
  | zero => intro l _; cases l <;> rfl
  | succ f ih =>
    intro l h
    cases l with
    | nil => rfl
    | cons c rest =>
      rw [removeURLFuel, urlMatchLen_eq_none h]
      rw [ih rest (fun hm => h (List.mem_cons_of_mem c hm))]

lemma removeURLFuel_sublist : ∀ (fuel : Nat) (l : List Char), List.Sublist (removeURLFuel fuel l) l := by
  intro fuel
  induction fuel with
  | zero => intro l; cases l <;> simp [removeURLFuel]
  | succ f ih =>
    intro l
    cases l with
    | nil => simp [removeURLFuel]
    | cons c rest =>
      rw [removeURLFuel]
      cases urlMatchLen (c :: rest) with
      | some n =>
        exact ((ih _).trans (List.drop_sublist _ _)).trans (List.sublist_cons_self c rest)
      | none => exact (ih rest).cons₂ c

/-! ### Email-removal lemmas -/

lemma emailMatchLen_eq_none {l : List Char} (pw : Bool) (h : '@' ∉ l) :
    emailMatchLen pw l = none := by
  unfold emailMatchLen
  cases l with
  | nil => rfl
  | cons c rest =>
    by_cases hb : pw = pyIsWordChar c
    · simp only [if_pos hb]
    · simp only [if_neg hb]
      by_cases ha : ((c :: rest).takeWhile emailClassA).isEmpty
      · simp only [if_pos ha]
      · simp only [if_neg ha]
        have hhd : ¬ (((c :: rest).drop ((c :: rest).takeWhile emailClassA).length).head?
            = some '@') := by
          intro he
          apply h
          apply List.drop_subset ((c :: rest).takeWhile emailClassA).length (c :: rest)
          cases hd : (c :: rest).drop ((c :: rest).takeWhile emailClassA).length with
          | nil => rw [hd] at he; simp at he
          | cons d tl =>
            rw [hd] at he
            simp only [List.head?_cons, Option.some.injEq] at he
            subst he
            exact List.mem_cons_self _ _
        simp only [if_neg hhd]

lemma removeEmailFuel_id :
    ∀ (fuel : Nat) (pw : Bool) (l : List Char), '@' ∉ l → removeEmailFuel fuel pw l = l := by
  intro fuel
  induction fuel with
  | zero => intro pw l _; cases l <;> rfl
  | succ f ih =>
    intro pw l h
    cases l with
    | nil => rfl
    | cons c rest =>
      rw [removeEmailFuel, emailMatchLen_eq_none pw h]
      rw [ih (pyIsWordChar c) rest (fun hm => h (List.mem_cons_of_mem c hm))]

lemma removeEmailFuel_sublist :
    ∀ (fuel : Nat) (pw : Bool) (l : List Char), List.Sublist (removeEmailFuel fuel pw l) l := by
  intro fuel
  induction fuel with
  | zero => intro pw l; cases l <;> simp [removeEmailFuel]
  | succ f ih =>
    intro pw l
    cases l with
    | nil => simp [removeEmailFuel]
    | cons c rest =>
      rw [removeEmailFuel]
      cases emailMatchLen pw (c :: rest) with
      | some n =>
        exact ((ih _ _).trans (List.drop_sublist _ _)).trans (List.sublist_cons_self c rest)
      | none => exact (ih _ rest).cons₂ c

/-! ### `clean_text` composition lemmas -/

lemma not_mem_collapseWS {c : Char} {S : List Char} (hne : c ≠ ' ') (h : c ∉ S) :
    c ∉ collapseWS S := by
  intro hm
  rcases mem_collapseAux S false hm with h' | h'
  · exact h h'
  · exact hne h'

lemma clean_text_eq_strip_collapse {S : List Char} (hc : ':' ∉ S) (ha : '@' ∉ S) :
    clean_text S = pyStrip (collapseWS S) := by
  have hcy : ':' ∉ collapseWS S := not_mem_collapseWS (by decide) hc
  have hay : '@' ∉ collapseWS S := not_mem_collapseWS (by decide) ha
  unfold clean_text removeURL removeEmail
  rw [removeURLFuel_id _ _ hcy, removeEmailFuel_id _ _ _ hay]

lemma clean_text_ws_space {S : List Char} {c : Char}
    (hm : c ∈ clean_text S) (hws : pyIsSpace c = true) : c = ' ' := by
  unfold clean_text removeURL removeEmail at hm
  have h1 := (pyStrip_sublist _).subset hm
  have h2 := (removeEmailFuel_sublist _ _ _).subset h1
  have h3 := (removeURLFuel_sublist _ _).subset h2
  exact collapseAux_ws_space S false h3 hws

lemma clean_text_newline_count (S : List Char) : (clean_text S).count '\n' = 0 := by
  rw [List.count_eq_zero]
  intro hm
  exact absurd (clean_text_ws_space hm (by decide)) (by decide)

lemma pyStrip_clean_text (S : List Char) : pyStrip (clean_text S) = clean_text S := by
  unfold clean_text
  exact pyStrip_idem _

/-! ### Fetcher result lemmas -/

lemma fetchBody_ok_parts {fetch : Nat → Except String HttpResponse} {cfg : Config}
    {p h : List (List Char)} (hres : fetchBody fetch cfg = .ok (p, h)) :
    (∀ t ∈ p, ∃ s, t = clean_text s) ∧ (∀ t ∈ h, ∃ s, t = clean_text s) := by
  unfold fetchBody at hres
  cases hfr : fetch cfg.timeout with
  | error e => rw [hfr] at hres; exact absurd hres (by simp)
  | ok resp =>
    rw [hfr] at hres
    dsimp only at hres
    by_cases hst : 400 ≤ resp.status ∧ resp.status < 600
    · rw [if_pos hst] at hres; exact absurd hres (by simp)
    · rw [if_neg hst] at hres
      simp only [Except.ok.injEq, Prod.mk.injEq] at hres
      obtain ⟨hp, hh⟩ := hres
      constructor
      · intro t ht
        rw [← hp] at ht
        rcases List.mem_filterMap.mp ht with ⟨a, -, hfa⟩
        by_cases hca : cfg.min_paragraph_length ≤ a.length
            ∧ is_telugu_text a cfg.min_telugu_ratio
        · rw [if_pos hca] at hfa
          exact ⟨a, (Option.some.injEq _ _ ▸ hfa).symm⟩
        · rw [if_neg hca] at hfa
          exact absurd hfa (by simp)
      · intro t ht
        rw [← hh] at ht
        by_cases hx : cfg.extract_headings
        · rw [if_pos hx] at ht
          rcases List.mem_filterMap.mp ht with ⟨a, -, hfa⟩
          by_cases hca : a ≠ [] ∧ is_telugu_text a cfg.min_telugu_ratio
          · rw [if_pos hca] at hfa
            exact ⟨a, (Option.some.injEq _ _ ▸ hfa).symm⟩
          · rw [if_neg hca] at hfa
            exact absurd hfa (by simp)
        · rw [if_neg hx] at ht
          exact absurd ht (List.not_mem_nil t)

lemma collect_newline_free (url : List Char) (fetch : Nat → Except String HttpResponse)
    (cfg : Config) :
    ∀ t ∈ (collect_from_url url fetch cfg).paragraphs
        ++ (collect_from_url url fetch cfg).headings, t.count '\n' = 0 := by
  intro t ht
  unfold collect_from_url at ht
  cases hres : fetchBody fetch cfg with
  | error e =>
    rw [hres] at ht
    exact absurd ht (by simp)
  | ok ph =>
    obtain ⟨p, h⟩ := ph
    rw [hres] at ht
    dsimp only at ht
    rcases List.mem_append.mp ht with h' | h'
    · obtain ⟨s, hs⟩ := (fetchBody_ok_parts hres).1 t h'
      rw [hs]; exact clean_text_newline_count s
    · obtain ⟨s, hs⟩ := (fetchBody_ok_parts hres).2 t h'
      rw [hs]; exact clean_text_newline_count s

/-! ### Deduplication lemmas -/

lemma dedupAux_length_le :
    ∀ (xs seen : List (List Char)), (dedupAux seen xs).length ≤ xs.length := by
  intro xs
  induction xs with
  | nil => intro seen; simp [dedupAux]
  | cons x xs ih =>
    intro seen
    rw [dedupAux]
    by_cases hx : x.map pyToLower ∈ seen
    · simp only [if_pos hx]
      exact (ih seen).trans (Nat.le_succ _)
    · simp only [if_neg hx, List.length_cons]
      exact Nat.succ_le_succ (ih _)

lemma dedupAux_eq_dedupSpec :
    ∀ (xs seen : List (List Char)),
      dedupAux seen xs = dedupSpec (xs.filter fun m => decide (m.map pyToLower ∉ seen)) := by
  intro xs
  induction xs with
  | nil => intro seen; simp [dedupAux, dedupSpec]
  | cons x xs ih =>
    intro seen
    rw [dedupAux, List.filter_cons]
    by_cases hx : x.map pyToLower ∈ seen
    · rw [if_pos hx]
      rw [show (decide (x.map pyToLower ∉ seen)) = false by simp [hx]]
      simp only [Bool.false_eq_true, if_false]
      exact ih seen
    · rw [if_neg hx]
      rw [show (decide (x.map pyToLower ∉ seen)) = true by simp [hx]]
      simp only [if_true]
      rw [dedupSpec, List.filter_filter]
      rw [ih (x.map pyToLower :: seen)]
      congr 1
      congr 1
      apply List.filter_congr
      intro a _
      simp [List.mem_cons, not_or, Bool.and_comm]

lemma pyDedup_eq_dedupSpec (xs : List (List Char)) : pyDedup xs = dedupSpec xs := by
  rw [pyDedup, dedupAux_eq_dedupSpec]
  congr 1
  apply List.filter_eq_self.mpr
  intro a _
  simp

/-! ### Line-splitting and counting lemmas -/

lemma pySplitLines_ne_nil (l : List Char) : pySplitLines l ≠ [] := by
  cases l with
  | nil => simp [pySplitLines]
  | cons c rest =>
    rw [pySplitLines]
    by_cases hc : c = '\n'
    · simp [hc]
    · rw [if_neg hc]
      cases pySplitLines rest <;> simp

lemma length_filter_bool_add {α : Type} (p : α → Bool) (l : List α) :
    (l.filter p).length + (l.filter fun a => !p a).length = l.length := by
  induction l with
  | nil => rfl
  | cons a t ih =>
    by_cases h : p a <;> simp [List.filter_cons, h] <;> omega

/-! ### Claim theorems -/

/-- C1 (amended): `clean_corpus_file` can never fault with a
division-by-zero on `reduction_percentage`, because `content.split('\n')`
always yields at least one line, so the divisor `original_lines` is
positive for every raw artifact; however, on an artifact with no content
(the empty file) the computed `reduction_percentage` is `100`, not `0`. -/
theorem clean_stats_no_div_by_zero (content : List Char) (cfg : Config) (now : List Char) :
    0 < (cleaningStats content cfg now).original_lines
  ∧ (cleaningStats [] cfg now).reduction_percentage = 100 := by
  constructor
  · simp only [cleaningStats]
    exact List.length_pos.mpr (pySplitLines_ne_nil content)
  · simp only [cleaningStats, cleanedLines, pySplitLines, lineKeep, pyStrip, pyDedup, dedupAux]
    norm_num

/-- C1 counterexample: on a raw artifact with no content at all, the claim
`reduction_percentage == 0` is false — the code computes
`(1 - 0/1) * 100 = 100`. -/
theorem empty_artifact_reduction_not_zero :
    (cleaningStats [] cfg0 []).reduction_percentage = 100
  ∧ (cleaningStats [] cfg0 []).reduction_percentage ≠ 0 := by
  constructor <;>
    · simp only [cleaningStats, cleanedLines, pySplitLines, lineKeep, pyStrip, pyDedup, dedupAux]
      norm_num

/-- C2 (amended): `clean_text` is idempotent on every input containing no
`':'` and no `'@'` (inputs on which the URL- and email-removal steps
cannot act); it is not idempotent in general, because removing a URL or
email can bring two spaces together, which only a second whitespace
collapse would merge. -/
theorem clean_text_idem_without_url_email (S : List Char)
    (hc : ':' ∉ S) (ha : '@' ∉ S) :
    clean_text (clean_text S) = clean_text S := by
  have h1 : clean_text S = pyStrip (collapseWS S) := clean_text_eq_strip_collapse hc ha
  have hcy : ':' ∉ collapseWS S := not_mem_collapseWS (by decide) hc
  have hay : '@' ∉ collapseWS S := not_mem_collapseWS (by decide) ha
  have hsub := (pyStrip_sublist (collapseWS S)).subset
  have hcT : ':' ∉ pyStrip (collapseWS S) := fun hm => hcy (hsub hm)
  have haT : '@' ∉ pyStrip (collapseWS S) := fun hm => hay (hsub hm)
  have hnwT : normWS false (pyStrip (collapseWS S)) = true :=
    normWS_pyStrip (normWS_collapseAux S false)
  have hcoll : collapseWS (pyStrip (collapseWS S)) = pyStrip (collapseWS S) :=
    normWS_fix _ false hnwT
  rw [h1]
  calc clean_text (pyStrip (collapseWS S))
      = pyStrip (collapseWS (pyStrip (collapseWS S))) :=
        clean_text_eq_strip_collapse hcT haT
    _ = pyStrip (pyStrip (collapseWS S)) := by rw [hcoll]
    _ = pyStrip (collapseWS S) := pyStrip_idem _

/-- C2 witness: a URL-free, email-free input on which idempotence holds. -/
theorem clean_text_idem_witness :
    ':' ∉ "hello   world".toList ∧ '@' ∉ "hello   world".toList
  ∧ clean_text (clean_text "hello   world".toList) = clean_text "hello   world".toList :=
  ⟨by decide, by decide,
    clean_text_idem_without_url_email "hello   world".toList (by decide) (by decide)⟩

/-- C2 counterexample: on `"a http://x b"`, removing the URL joins the two
surrounding spaces, so a second application of `clean_text` collapses them
and the result changes (`"a  b"` vs `"a b"`): the normalizer is not
idempotent as claimed. -/
theorem clean_text_not_idempotent :
    clean_text (clean_text "a http://x b".toList) ≠ clean_text "a http://x b".toList := by
  decide

/-- C3: whenever the fetch-and-parse body of `collect_from_url` raises —
in particular on a non-success HTTP status such as 404, turned into an
exception by `raise_for_status` — the function catches the exception
(returning a plain `FetchResult`, never propagating) with `success=false`,
empty paragraph and heading lists, and a non-null error message. -/
theorem collect_from_url_error_result :
    (∀ (url : List Char) (fetch : Nat → Except String HttpResponse) (cfg : Config)
        (e : String), fetchBody fetch cfg = .error e →
        collect_from_url url fetch cfg = ⟨url, [], [], false, some e⟩)
  ∧ (∀ (url : List Char) (cfg : Config) (resp : HttpResponse),
        400 ≤ resp.status → resp.status < 600 →
        collect_from_url url (fun _ => .ok resp) cfg
          = ⟨url, [], [], false, some ("HTTP error " ++ toString resp.status)⟩) := by
  constructor
  · intro url fetch cfg e h
    unfold collect_from_url
    rw [h]
  · intro url cfg resp h1 h2
    have hb : fetchBody (fun _ => .ok resp) cfg
        = .error ("HTTP error " ++ toString resp.status) := by
      unfold fetchBody
      exact if_pos ⟨h1, h2⟩
    unfold collect_from_url
    rw [hb]

/-- C3 witness: a URL answering HTTP 404. -/
theorem collect_from_url_404_witness :
    collect_from_url "https://u".toList fetch404 cfg0
      = ⟨"https://u".toList, [], [], false, some "HTTP error 404"⟩ :=
  collect_from_url_error_result.1 "https://u".toList fetch404 cfg0 _ rfl

/-- C4 (amended): a filesystem write failure while persisting an artifact
propagates out of `save_corpus` (which has no exception handler), but not
out of `clean_corpus_file`, whose blanket `except Exception` catches it
and turns the whole run into the `(None, None)` failure result. -/
theorem write_failure_save_propagates_clean_caught :
    (∀ (R : List FetchResult) (cfg : Config) (now : List Char) (fs : SaveFS) (e : String),
        R ≠ [] → fs.writeRaw (rawArtifact now R) = .error e →
        save_corpus R cfg now fs = .error e)
  ∧ (∀ (fs : CleanFS) (cfg : Config) (now : List Char) (e : String),
        cleanBody fs cfg now = .error e →
        clean_corpus_file fs cfg now = (none, none)) := by
  constructor
  · intro R cfg now fs e hR hw
    unfold save_corpus
    rw [if_neg (by simpa using hR), hw]
  · intro fs cfg now e h
    unfold clean_corpus_file
    rw [h]

/-- C4 witness: a failing raw-artifact write makes `save_corpus` end in
the raised exception, and a failing cleaned-file write makes
`clean_corpus_file` return the null pair. -/
theorem write_failure_witness :
    save_corpus [r0] cfg0 [] fsSaveBad = .error "permission denied"
  ∧ clean_corpus_file fsBadWrite cfg0 [] = (none, none) :=
  ⟨write_failure_save_propagates_clean_caught.1 [r0] cfg0 [] fsSaveBad
      "permission denied" (by decide) rfl,
   write_failure_save_propagates_clean_caught.2 fsBadWrite cfg0 [] "disk full" rfl⟩

/-- C4 counterexample: a cleaning run whose cleaned-file write raises
`"disk full"`: the body ends in that exception, yet `clean_corpus_file`
returns the ordinary `(None, None)` failure value — the write failure is
handled by the cleaner's own `except` block and does not propagate to the
caller. -/
theorem clean_write_failure_not_propagated :
    cleanBody fsBadWrite cfg0 [] = .error "disk full"
  ∧ clean_corpus_file fsBadWrite cfg0 [] = (none, none) :=
  ⟨rfl, rfl⟩

/-- C5: `collect_from_url` never reads `max_retries`: two configurations
agreeing on every other field produce identical results on every URL and
every fetch outcome (no retry is ever attempted). -/
theorem max_retries_irrelevant (url : List Char)
    (fetch : Nat → Except String HttpResponse) (c1 c2 : Config)
    (ht : c1.timeout = c2.timeout)
    (hd : c1.delay_between_requests = c2.delay_between_requests)
    (hp : c1.min_paragraph_length = c2.min_paragraph_length)
    (hr : c1.min_telugu_ratio = c2.min_telugu_ratio)
    (hh : c1.extract_headings = c2.extract_headings) :
    collect_from_url url fetch c1 = collect_from_url url fetch c2 := by
  obtain ⟨t1, d1, m1, p1, r1, x1⟩ := c1
  obtain ⟨t2, d2, m2, p2, r2, x2⟩ := c2
  simp only at ht hd hp hr hh
  subst ht hd hp hr hh
  rfl

/-- C5 witness: the default configuration and the same configuration with
a different max-retries value behave identically. -/
theorem max_retries_irrelevant_witness :
    cfg0.max_retries ≠ cfg1.max_retries
  ∧ collect_from_url "u".toList fetchBoom cfg0 = collect_from_url "u".toList fetchBoom cfg1 :=
  ⟨by decide, max_retries_irrelevant "u".toList fetchBoom cfg0 cfg1 rfl rfl rfl rfl rfl⟩

/-- C6: for every non-empty result list, the metadata computed by
`save_corpus` satisfies
`successful_urls + failed_urls == total_urls == len(R)`. -/
theorem metadata_url_counts (now : List Char) (R : List FetchResult) (cfg : Config)
    (_hR : R ≠ []) :
    (collectionMetadata now R cfg).successful_urls
        + (collectionMetadata now R cfg).failed_urls
      = (collectionMetadata now R cfg).total_urls
  ∧ (collectionMetadata now R cfg).total_urls = R.length := by
  refine ⟨?_, rfl⟩
  simp only [collectionMetadata]
  exact length_filter_bool_add (fun d => d.success) R

/-- C6 witness: a one-element result list. -/
theorem metadata_url_counts_witness :
    ([r0] : List FetchResult) ≠ []
  ∧ (collectionMetadata [] [r0] cfg0).successful_urls
        + (collectionMetadata [] [r0] cfg0).failed_urls
      = (collectionMetadata [] [r0] cfg0).total_urls :=
  ⟨by decide, (metadata_url_counts [] [r0] cfg0 (by decide)).1⟩

/-- C7: for every raw-artifact content, configuration and timestamp, the
cleaning statistics computed by `clean_corpus_file` satisfy
`0 <= final_lines <= cleaned_lines <= original_lines` and
`duplicates_removed == cleaned_lines - final_lines`. -/
theorem cleaning_stats_invariants (content : List Char) (cfg : Config) (now : List Char) :
    0 ≤ (cleaningStats content cfg now).final_lines
  ∧ (cleaningStats content cfg now).final_lines ≤ (cleaningStats content cfg now).cleaned_lines
  ∧ (cleaningStats content cfg now).cleaned_lines
      ≤ (cleaningStats content cfg now).original_lines
  ∧ (cleaningStats content cfg now).duplicates_removed
      = ((cleaningStats content cfg now).cleaned_lines : Int)
        - ((cleaningStats content cfg now).final_lines : Int) := by
  refine ⟨Nat.zero_le _, ?_, ?_, rfl⟩
  · simp only [cleaningStats, pyDedup]
    exact dedupAux_length_le _ []
  · simp only [cleaningStats, cleanedLines]
    exact List.length_filterMap_le _ _

/-- C8: the cleaner's deduplication keys lines by their lowercase form,
keeps the first occurrence in input order with its original casing, drops
later case-insensitive duplicates (i.e. it agrees with the recursive
first-occurrence specification), and in particular maps
`["Foo", "bar", "foo"]` to `["Foo", "bar"]`. -/
theorem dedup_matches_spec :
    (∀ L : List (List Char), pyDedup L = dedupSpec L)
  ∧ pyDedup ["Foo".toList, "bar".toList, "foo".toList]
      = ["Foo".toList, "bar".toList] :=
  ⟨pyDedup_eq_dedupSpec, by decide⟩

/-- C9: `is_telugu_text` returns false on every string with zero word
characters, regardless of the ratio threshold. -/
theorem is_telugu_false_no_word_chars (text : List Char) (r : ℚ)
    (h : text.countP pyIsWordChar = 0) : is_telugu_text text r = false := by
  unfold is_telugu_text
  by_cases hs : pyStrip text = []
  · rw [if_pos hs]
  · rw [if_neg hs]
    simp [h]

/-- C9 witness: an all-punctuation string and the most permissive
threshold. -/
theorem is_telugu_false_no_word_chars_witness :
    "!? ,.".toList.countP pyIsWordChar = 0
  ∧ is_telugu_text "!? ,.".toList 0 = false :=
  ⟨by decide, is_telugu_false_no_word_chars "!? ,.".toList 0 (by decide)⟩

/-- C10 (amended): every whitespace character in a `clean_text` output is
a plain `' '` (no newline or tab can remain), the output carries no
leading or trailing whitespace (it is a fixed point of `strip`), and it
contains no newline, so every paragraph or heading stored by
`collect_from_url` — and hence written by `save_corpus` — occupies exactly
one line of the raw artifact.  However, runs of more than one interior
space can occur (see the counterexample), so the stronger reading "only
single interior spaces" is false. -/
theorem clean_text_single_line_output (S : List Char) (url : List Char)
    (fetch : Nat → Except String HttpResponse) (cfg : Config) :
    (clean_text S).all (fun c => !pyIsSpace c || (c == ' ')) = true
  ∧ pyStrip (clean_text S) = clean_text S
  ∧ (clean_text S).count '\n' = 0
  ∧ (((collect_from_url url fetch cfg).paragraphs
        ++ (collect_from_url url fetch cfg).headings).all
      (fun t => t.count '\n' == 0)) = true := by
  refine ⟨?_, pyStrip_clean_text S, clean_text_newline_count S, ?_⟩
  · rw [List.all_eq_true]
    intro c hc
    by_cases hws : pyIsSpace c
    · rw [clean_text_ws_space hc hws]
      simp
    · simp [hws]
  · rw [List.all_eq_true]
    intro t ht
    simpa using collect_newline_free url fetch cfg t ht

/-- C10 counterexample: `clean_text "a http://x b" = "a  b"` contains two
adjacent interior spaces, refuting the "single interior spaces" part of
the claim. -/
theorem clean_text_double_space :
    clean_text "a http://x b".toList = "a  b".toList
  ∧ [' ', ' '] <:+: clean_text "a http://x b".toList :=
  ⟨by decide, ⟨['a'], ['b'], by decide⟩⟩

end ModelApp
